import Mathlib

/-!
Shallow embedding of the two stateful cores of the FissionPrompt client:
the video-generation poll loop (src/components/VideoGen.tsx) and the live
duplex audio session (src/components/LiveConvo.tsx).  Times are modelled
as rationals, resource handles as `Option` values, and the callback-driven
handlers as pure state-transition functions applied to explicit event
sequences.
-/

namespace VideoGen

/-- The fixed ordered list of progress strings, from `loadingMessages`
in VideoGen.tsx lines 9-15. -/
def loadingMessages : List String :=
  [ "Warming up the digital director\x27s chair...",
    "Choreographing pixels into motion...",
    "Rendering your cinematic masterpiece...",
    "Applying the final digital polish...",
    "Almost ready for the premiere..." ]

/-- Component state of VideoGen: the React `useState` values plus the two
interval refs, which are modelled as boolean activity flags (an interval
that has been cleared never fires again). -/
structure GenState where
  prompt : String
  image : Option String
  generatedVideo : Option String
  loading : Bool
  loadingMessage : String
  error : Option String
  pollTimerActive : Bool
  msgTimerActive : Bool
  msgIdx : Nat
  deriving Repr, DecidableEq

/-- Outcome of one poll tick's query `getVideosOperation`, as observed by the
`setInterval` callback of `pollOperation` (VideoGen.tsx lines 77-95):
the operation is not done yet, done with a first generated video, done with
no video in the response, or the query itself threw. -/
inductive TickOutcome where
  | stillPending : TickOutcome
  | doneWith (v : String) : TickOutcome
  | doneEmpty : TickOutcome
  | queryError (m : String) : TickOutcome
  deriving Repr, DecidableEq

/-- One tick of the poll interval, from `pollOperation` (VideoGen.tsx lines
76-96).  A cleared interval (`pollTimerActive = false`) fires no callback,
so a tick is then the identity.  On `done` the interval is cleared and
loading stops before the payload is inspected; a present payload is stored,
an absent one surfaces the no-video message.  A thrown query clears the
interval, stops loading and surfaces the polling-failure message. -/
def pollTick (s : GenState) (r : TickOutcome) : GenState :=
  if s.pollTimerActive = false then s else
  match r with
  | .stillPending => s
  | .doneWith v =>
      { s with pollTimerActive := false, loading := false, generatedVideo := some v }
  | .doneEmpty =>
      { s with pollTimerActive := false, loading := false,
               error := some "Video generation finished but no video was returned." }
  | .queryError m =>
      { s with pollTimerActive := false, loading := false,
               error := some (String.append "Polling failed: " m) }

/-- The unmount cleanup returned by the first `useEffect` (VideoGen.tsx lines
39-42): both intervals are cleared; nothing else changes. -/
def unmountCleanup (s : GenState) : GenState :=
  { s with pollTimerActive := false, msgTimerActive := false }

/-- The body of the `useEffect` on `[loading]` (VideoGen.tsx lines 45-56):
while loading, the message index restarts at 0, the first message is shown
and the 5-second interval starts; otherwise that interval is cleared. -/
def loadingEffect (s : GenState) : GenState :=
  if s.loading then
    { s with msgIdx := 0, loadingMessage := loadingMessages.getD 0 "",
             msgTimerActive := true }
  else
    { s with msgTimerActive := false }

/-- One tick of the 5-second message interval (VideoGen.tsx lines 49-52):
advance the index modulo the list length and display that message.  A
cleared interval fires no callback. -/
def messageTick (s : GenState) : GenState :=
  if s.msgTimerActive then
    { s with msgIdx := (s.msgIdx + 1) % loadingMessages.length,
             loadingMessage := loadingMessages.getD ((s.msgIdx + 1) % loadingMessages.length) "" }
  else s

/-- The synchronous gate of `handleGenerate` (VideoGen.tsx lines 98-110): if
the prompt is empty and no image is selected, surface the prompt-or-image
message and return without issuing a request; otherwise clear error and
previous result, raise the loading flag and issue the submission request.
The returned boolean records whether a submission request was issued. -/
def handleGenerate (s : GenState) : GenState × Bool :=
  if s.prompt = "" ∧ s.image = none then
    ({ s with error := some "Please enter a prompt or upload an image." }, false)
  else
    ({ s with loading := true, error := none, generatedVideo := none }, true)

/-- The component state right after a successful submission while the first
poll tick is pending: loading, both intervals running, no error, no result. -/
def pollingState : GenState :=
  { prompt := "p", image := none, generatedVideo := none, loading := true,
    loadingMessage := loadingMessages.getD 0 "", error := none,
    pollTimerActive := true, msgTimerActive := true, msgIdx := 0 }

/-- The component's initial state: empty form, idle, no result, no error. -/
def emptyForm : GenState :=
  { prompt := "", image := none, generatedVideo := none, loading := false,
    loadingMessage := loadingMessages.getD 0 "", error := none,
    pollTimerActive := false, msgTimerActive := false, msgIdx := 0 }

end VideoGen

namespace LiveConvo

/-- One inbound server message as seen by the `onmessage` callback
(LiveConvo.tsx lines 92-124): optional output-transcript and
input-transcript fragments, a turn-complete flag, an optional audio
payload (modelled by the duration of the decoded chunk), and the output
clock time at which the message is handled. -/
structure ServerMessage where
  outputTranscription : Option String
  inputTranscription : Option String
  turnComplete : Bool
  audioData : Option ℚ
  arrival : ℚ
  deriving Repr, DecidableEq

/-- Component and session state of LiveConvo: the React `useState` values,
the closure-local transcript accumulators of `startConversation`, and the
resource refs.  Handles are `Option` values (`none` models a null ref); the
input audio context records whether it is closed; `audioSources` holds the
start times of the scheduled, not-yet-finished buffer sources;
`channelOpen` records whether the live channel's `onopen` has fired. -/
structure ConvoState where
  isSessionActive : Bool
  error : Option String
  userTranscript : String
  modelTranscript : String
  conversationHistory : List (String × String)
  currentInputTranscription : String
  currentOutputTranscription : String
  sessionPromise : Option Unit
  mediaStream : Option Unit
  inputAudioContext : Option Bool
  outputAudioContext : Option Unit
  scriptProcessor : Option Unit
  sourceNode : Option Unit
  nextStartTime : ℚ
  audioSources : List ℚ
  channelOpen : Bool
  deriving Repr, DecidableEq

/-- The component's initial state: inactive, no error, empty transcripts,
all refs null, zero schedule. -/
def initConvoState : ConvoState :=
  { isSessionActive := false, error := none, userTranscript := "",
    modelTranscript := "", conversationHistory := [],
    currentInputTranscription := "", currentOutputTranscription := "",
    sessionPromise := none, mediaStream := none, inputAudioContext := none,
    outputAudioContext := none, scriptProcessor := none, sourceNode := none,
    nextStartTime := 0, audioSources := [], channelOpen := false }

/-- The `onmessage` callback (LiveConvo.tsx lines 92-124).  First the
transcript branch: an output fragment is appended to the output
accumulator, otherwise (else-if) an input fragment is appended to the input
accumulator.  Then the turn-complete branch: the current accumulator pair
is appended to the history and both accumulators (and the live transcript
values) are cleared.  Finally the audio branch: when the message carries
audio and the output context ref is non-null, the chunk is scheduled at
`max nextStartTime currentTime`, `nextStartTime` advances by the chunk's
duration, and the source is tracked. -/
def onmessage (s : ConvoState) (m : ServerMessage) : ConvoState :=
  let s1 :=
    match m.outputTranscription with
    | some t =>
        { s with currentOutputTranscription := s.currentOutputTranscription ++ t,
                 modelTranscript := s.currentOutputTranscription ++ t }
    | none =>
        match m.inputTranscription with
        | some t =>
            { s with currentInputTranscription := s.currentInputTranscription ++ t,
                     userTranscript := s.currentInputTranscription ++ t }
        | none => s
  let s2 :=
    if m.turnComplete then
      { s1 with
          conversationHistory := s1.conversationHistory ++
            [(s1.currentInputTranscription, s1.currentOutputTranscription)],
          currentInputTranscription := "", currentOutputTranscription := "",
          userTranscript := "", modelTranscript := "" }
    else s1
  match m.audioData with
  | some d =>
      if s2.outputAudioContext.isSome then
        let start := max s2.nextStartTime m.arrival
        { s2 with nextStartTime := start + d,
                  audioSources := s2.audioSources ++ [start] }
      else s2
  | none => s2

/-- The `onopen` callback (LiveConvo.tsx lines 77-91): the channel is now
established and the capture wiring (media-stream source node and script
processor) is created and connected. -/
def onopen (s : ConvoState) : ConvoState :=
  { s with sourceNode := some (), scriptProcessor := some (), channelOpen := true }

/-- The externally observable effect calls made by `cleanup`, in order. -/
inductive TeardownStep where
  | closeSession : TeardownStep
  | stopTracks : TeardownStep
  | disconnectProcessor : TeardownStep
  | disconnectSource : TeardownStep
  | closeInputContext : TeardownStep
  | stopSource (start : ℚ) : TeardownStep
  deriving Repr, DecidableEq

/-- Which of the synchronous effect calls inside `cleanup` throw.  The
session close and the input-context close settle asynchronously (they are a
`then` continuation and a returned promise), so they cannot abort the
synchronous body of `cleanup`. -/
structure FailEnv where
  stopTracksThrows : Bool
  disconnectProcessorThrows : Bool
  disconnectSourceThrows : Bool
  stopSourceThrows : Bool
  deriving Repr, DecidableEq

/-- The environment in which no teardown effect call throws. -/
def benign : FailEnv :=
  { stopTracksThrows := false, disconnectProcessorThrows := false,
    disconnectSourceThrows := false, stopSourceThrows := false }

/-- A cleanup computation in flight: the state so far, the effect calls
made so far, and whether an exception has escaped (aborting the rest). -/
abbrev CleanupM := ConvoState × List TeardownStep × Bool

/-- Sequencing of cleanup steps with JavaScript exception semantics: once a
step has thrown, no later statement of `cleanup` runs. -/
def andThen (c : CleanupM) (f : ConvoState → List TeardownStep → CleanupM) : CleanupM :=
  match c with
  | (s, log, true) => (s, log, true)
  | (s, log, false) => f s log

/-- The `cleanup` function (LiveConvo.tsx lines 23-48), step by step in
source order.  Each guarded block performs its effect call and then nulls
its ref; a throwing call leaves the ref set and aborts the remaining
statements.  The session close runs inside a promise continuation, so it
always just logs the close and nulls the ref. -/
def cleanup (env : FailEnv) (s : ConvoState) : CleanupM :=
  andThen
    (match s.sessionPromise with
     | some _ => ({ s with sessionPromise := none }, [TeardownStep.closeSession], false)
     | none => (s, [], false))
    fun s log => andThen
      (match s.mediaStream with
       | some _ =>
           if env.stopTracksThrows then (s, log ++ [TeardownStep.stopTracks], true)
           else ({ s with mediaStream := none }, log ++ [TeardownStep.stopTracks], false)
       | none => (s, log, false))
      fun s log => andThen
        (match s.scriptProcessor with
         | some _ =>
             if env.disconnectProcessorThrows then
               (s, log ++ [TeardownStep.disconnectProcessor], true)
             else ({ s with scriptProcessor := none },
                   log ++ [TeardownStep.disconnectProcessor], false)
         | none => (s, log, false))
        fun s log => andThen
          (match s.sourceNode with
           | some _ =>
               if env.disconnectSourceThrows then
                 (s, log ++ [TeardownStep.disconnectSource], true)
               else ({ s with sourceNode := none },
                     log ++ [TeardownStep.disconnectSource], false)
           | none => (s, log, false))
          fun s log => andThen
            (match s.inputAudioContext with
             | some closed =>
                 if closed then (s, log, false)
                 else ({ s with inputAudioContext := none },
                       log ++ [TeardownStep.closeInputContext], false)
             | none => (s, log, false))
            fun s log => andThen
              ({ s with isSessionActive := false }, log, false)
              fun s log => andThen
                ({ s with nextStartTime := 0 }, log, false)
                fun s log => andThen
                  (if env.stopSourceThrows then
                     match s.audioSources with
                     | [] => (s, log, false)
                     | a :: _ => (s, log ++ [TeardownStep.stopSource a], true)
                   else (s, log ++ s.audioSources.map TeardownStep.stopSource, false))
                  fun s log => ({ s with audioSources := [] }, log, false)

/-- The `stopConversation` handler (LiveConvo.tsx lines 150-152): it just
calls `cleanup`. -/
def stopConversation (env : FailEnv) (s : ConvoState) : CleanupM :=
  cleanup env s

/-- Outcome of the awaited `getUserMedia` call: granted, rejected with a
permission error name, rejected with `NotFoundError`, or rejected with some
other error carrying a message. -/
inductive MicOutcome where
  | granted : MicOutcome
  | notAllowed : MicOutcome
  | notFound : MicOutcome
  | otherError (msg : String) : MicOutcome
  deriving Repr, DecidableEq

/-- The environment a `startConversation` attempt runs against: whether the
runtime has `mediaDevices.getUserMedia`, and how the microphone request
resolves. -/
structure StartEnv where
  hasGetUserMedia : Bool
  mic : MicOutcome
  deriving Repr, DecidableEq

/-- Error message thrown when the capture API is unavailable
(LiveConvo.tsx line 62). -/
def supportErrorMessage : String :=
  "Your browser does not support the necessary audio features. Please try a modern browser like Chrome or Firefox."

/-- Error message for a denied microphone permission (LiveConvo.tsx line 140). -/
def permissionDeniedMessage : String :=
  "Microphone access denied. Please enable microphone permissions in your browser settings to continue."

/-- Error message when no microphone device exists (LiveConvo.tsx line 142). -/
def noMicrophoneMessage : String :=
  "No microphone found. Please connect a microphone and try again."

/-- Fallback message of the generic catch branch (LiveConvo.tsx line 144). -/
def fallbackStartMessage : String :=
  "Failed to start conversation. Please ensure your microphone is connected and permissions are granted."

/-- The `startConversation` handler (LiveConvo.tsx lines 54-148) up to the
point where its synchronous continuation finishes.  It clears error,
history and transcripts; without capture support it throws into the catch
branch; a granted microphone leads to the contexts being created, the
transcript accumulators being reset, the live connection being initiated
(promise stored, channel not yet open) and the session being marked active
immediately.  Every rejection is mapped by the catch branch to its message
and followed by `cleanup`. -/
def startConversation (env : StartEnv) (s : ConvoState) : ConvoState :=
  let s0 := { s with error := none, conversationHistory := [],
                     userTranscript := "", modelTranscript := "" }
  if env.hasGetUserMedia = false then
    (cleanup benign { s0 with error := some supportErrorMessage }).1
  else
    match env.mic with
    | .granted =>
        { s0 with mediaStream := some (),
                  inputAudioContext := some false,
                  outputAudioContext := some (),
                  currentInputTranscription := "",
                  currentOutputTranscription := "",
                  sessionPromise := some (),
                  isSessionActive := true }
    | .notAllowed =>
        (cleanup benign { s0 with error := some permissionDeniedMessage }).1
    | .notFound =>
        (cleanup benign { s0 with error := some noMicrophoneMessage }).1
    | .otherError msg =>
        (cleanup benign
          { s0 with error := some (if msg = "" then fallbackStartMessage else msg) }).1

/-- The playback-scheduling step of the audio branch (LiveConvo.tsx lines
114-122) in isolation: given the pending `nextStartTime`, the clock time at
arrival and the chunk's duration, return the chunk's effective start and
the advanced `nextStartTime`. -/
def scheduleChunk (nst t d : ℚ) : ℚ × ℚ :=
  (max nst t, max nst t + d)

/-- Iterated scheduling of a sequence of chunks, each given as (clock time
at arrival, duration): returns the list of effective start times and the
final `nextStartTime`. -/
def scheduleChunks : ℚ → List (ℚ × ℚ) → List ℚ × ℚ
  | nst, [] => ([], nst)
  | nst, (t, d) :: rest =>
      let start := max nst t
      let res := scheduleChunks (start + d) rest
      (start :: res.1, res.2)

/-- Total duration of a chunk sequence. -/
def sumDurations (chunks : List (ℚ × ℚ)) : ℚ :=
  (chunks.map Prod.snd).sum

/-- Arrivals are back-to-back with respect to a pending `nextStartTime`:
each chunk arrives no later than the start of the slot the scheduler has
pending for it, so the scheduler itself introduces no gap. -/
def backToBack : ℚ → List (ℚ × ℚ) → Prop
  | _, [] => True
  | nst, (t, d) :: rest => t ≤ nst ∧ backToBack (max nst t + d) rest

/-- The gapless reference schedule: consecutive starts from `nst`, each
advanced by the previous chunk's duration. -/
def gaplessStarts : ℚ → List (ℚ × ℚ) → List ℚ
  | _, [] => []
  | nst, (_, d) :: rest => nst :: gaplessStarts (nst + d) rest

/-- The effect calls `cleanup` makes, in source order, when no call
throws: close the session, stop the capture tracks, disconnect the two
processing nodes, close the still-open input context and stop every
scheduled source. -/
def benignLog (s : ConvoState) : List TeardownStep :=
  (match s.sessionPromise with
   | some _ => [TeardownStep.closeSession]
   | none => [])
  ++ (match s.mediaStream with
      | some _ => [TeardownStep.stopTracks]
      | none => [])
  ++ (match s.scriptProcessor with
      | some _ => [TeardownStep.disconnectProcessor]
      | none => [])
  ++ (match s.sourceNode with
      | some _ => [TeardownStep.disconnectSource]
      | none => [])
  ++ (match s.inputAudioContext with
      | some false => [TeardownStep.closeInputContext]
      | _ => [])
  ++ s.audioSources.map TeardownStep.stopSource

/-- A mid-session state with every resource handle live, a nonzero
schedule and one scheduled source. -/
def fullState : ConvoState :=
  { isSessionActive := true, error := none, userTranscript := "u",
    modelTranscript := "m", conversationHistory := [],
    currentInputTranscription := "u", currentOutputTranscription := "m",
    sessionPromise := some (), mediaStream := some (),
    inputAudioContext := some false, outputAudioContext := some (),
    scriptProcessor := some (), sourceNode := some (),
    nextStartTime := 5, audioSources := [3], channelOpen := true }

/-- Concatenation, in arrival order, of the output-transcript fragments of
a message sequence. -/
def outputFragments : List ServerMessage → String
  | [] => ""
  | m :: rest => m.outputTranscription.getD "" ++ outputFragments rest

/-- Concatenation, in arrival order, of the input-transcript fragments the
handler actually appends: because of the else-if, a message that also
carries an output fragment contributes nothing here. -/
def inputFragments : List ServerMessage → String
  | [] => ""
  | m :: rest =>
      (match m.outputTranscription with
       | some _ => ""
       | none => m.inputTranscription.getD "") ++ inputFragments rest

/-- A message carrying both an output fragment and an input fragment. -/
def msgBoth : ServerMessage :=
  { outputTranscription := some "b", inputTranscription := some "a",
    turnComplete := false, audioData := none, arrival := 0 }

/-- A message carrying only an input fragment. -/
def msgInputOnly : ServerMessage :=
  { outputTranscription := none, inputTranscription := some "c",
    turnComplete := false, audioData := none, arrival := 0 }

/-- A bare turn-complete message. -/
def msgTurnOnly : ServerMessage :=
  { outputTranscription := none, inputTranscription := none,
    turnComplete := true, audioData := none, arrival := 0 }

/-- A message carrying one decoded audio chunk of duration 1, arriving at
clock time 0. -/
def msgAudioOnly : ServerMessage :=
  { outputTranscription := none, inputTranscription := none,
    turnComplete := false, audioData := some 1, arrival := 0 }

/-- An environment in which stopping the capture tracks throws. -/
def throwingEnv : FailEnv :=
  { stopTracksThrows := true, disconnectProcessorThrows := false,
    disconnectSourceThrows := false, stopSourceThrows := false }

end LiveConvo

namespace VideoGen

/-- The loading-message list has five entries. -/
lemma loadingMessages_length : loadingMessages.length = 5 := rfl

/-- A tick of a cleared poll interval changes nothing. -/
lemma pollTick_inactive (s : GenState) (r : TickOutcome)
    (h : s.pollTimerActive = false) : pollTick s r = s := by
  simp [pollTick, h]

/-- After the unmount cleanup no sequence of further poll ticks changes
the state. -/
lemma pollTick_foldl_unmount (s : GenState) (rs : List TickOutcome) :
    List.foldl pollTick (unmountCleanup s) rs = unmountCleanup s := by
  induction rs with
  | nil => rfl
  | cons r rs ih =>
      have h : (unmountCleanup s).pollTimerActive = false := rfl
      simpa [pollTick_inactive _ r h] using ih

/-- Claim C2: each tick outcome of the poll loop yields exactly one
terminal transition with its interval cleared exactly once.  Done with a
payload stores the payload; done without one fails with the no-video
message; a throwing query fails with the polling-failure message built
from the underlying error; a still-pending tick changes nothing and keeps
the interval; once the interval is cleared (terminal tick or unmount
cleanup) every further tick is a no-op, so no second terminal transition
can occur and unmount stops all future ticks. -/
theorem claim_C2_poll_terminal :
    (∀ v, pollTick pollingState (.doneWith v)
        = { pollingState with pollTimerActive := false, loading := false,
                              generatedVideo := some v })
    ∧ (pollTick pollingState .doneEmpty
        = { pollingState with pollTimerActive := false, loading := false,
                              error := some "Video generation finished but no video was returned." })
    ∧ (∀ m, pollTick pollingState (.queryError m)
        = { pollingState with pollTimerActive := false, loading := false,
                              error := some (String.append "Polling failed: " m) })
    ∧ pollTick pollingState .stillPending = pollingState
    ∧ pollingState.pollTimerActive = true
    ∧ (∀ s r, s.pollTimerActive = false → pollTick s r = s)
    ∧ (∀ s rs, List.foldl pollTick (unmountCleanup s) rs = unmountCleanup s) := by
  refine ⟨fun v => rfl, rfl, fun m => rfl, rfl, rfl, pollTick_inactive, pollTick_foldl_unmount⟩

/-- Witness for C2 at a concrete cleared state and a concrete tick
sequence. -/
theorem claim_C2_poll_terminal_witness :
    (unmountCleanup pollingState).pollTimerActive = false
    ∧ pollTick (unmountCleanup pollingState) .doneEmpty = unmountCleanup pollingState
    ∧ List.foldl pollTick (unmountCleanup pollingState) [.stillPending, .doneEmpty]
        = unmountCleanup pollingState :=
  ⟨rfl, claim_C2_poll_terminal.2.2.2.2.2.1 (unmountCleanup pollingState) .doneEmpty rfl,
   claim_C2_poll_terminal.2.2.2.2.2.2 pollingState [.stillPending, .doneEmpty]⟩

/-- While the message interval runs from a fresh loading state, the k-th
tick shows message k mod 5 and keeps the interval running. -/
lemma messageTick_iterate (s : GenState) (h : s.loading = true) (k : Nat) :
    (messageTick^[k] (loadingEffect s)).msgIdx = k % loadingMessages.length
    ∧ (messageTick^[k] (loadingEffect s)).msgTimerActive = true
    ∧ (messageTick^[k] (loadingEffect s)).loadingMessage
        = loadingMessages.getD (k % loadingMessages.length) "" := by
  induction k with
  | zero => simp [loadingEffect, h]
  | succ k ih =>
      obtain ⟨h1, h2, h3⟩ := ih
      have hmod : (k % loadingMessages.length + 1) % loadingMessages.length
          = (k + 1) % loadingMessages.length := by
        rw [loadingMessages_length]; omega
      rw [Function.iterate_succ_apply']
      refine ⟨?_, ?_, ?_⟩ <;> simp [messageTick, h1, h2, hmod]

/-- Claim C9: the 5-second message timer cycles the displayed progress
message through the fixed list in order with wraparound starting from the
first entry, never touches the job's fields, is stopped by the loading
effect as soon as a terminal poll tick ends the pending state, and is
stopped by the unmount cleanup; a stopped message timer fires no further
changes. -/
theorem claim_C9_message_cycling :
    (∀ s, s.loading = true → ∀ k,
        (messageTick^[k] (loadingEffect s)).loadingMessage
          = loadingMessages.getD (k % loadingMessages.length) ""
        ∧ (loadingEffect s).loadingMessage = loadingMessages.getD 0 "")
    ∧ (∀ s, (messageTick s).generatedVideo = s.generatedVideo
        ∧ (messageTick s).error = s.error
        ∧ (messageTick s).loading = s.loading
        ∧ (messageTick s).pollTimerActive = s.pollTimerActive)
    ∧ (∀ s r, s.pollTimerActive = true → r ≠ TickOutcome.stillPending →
        (loadingEffect (pollTick s r)).msgTimerActive = false)
    ∧ (∀ s, (unmountCleanup s).msgTimerActive = false)
    ∧ (∀ s, s.msgTimerActive = false → messageTick s = s) := by
  refine ⟨?_, ?_, ?_, fun s => rfl, ?_⟩
  · intro s h k
    exact ⟨(messageTick_iterate s h k).2.2, by simp [loadingEffect, h]⟩
  · intro s
    by_cases h : s.msgTimerActive <;> simp [messageTick, h]
  · intro s r hp hr
    cases r with
    | stillPending => exact absurd rfl hr
    | doneWith v => simp [pollTick, hp, loadingEffect]
    | doneEmpty => simp [pollTick, hp, loadingEffect]
    | queryError m => simp [pollTick, hp, loadingEffect]
  · intro s h
    simp [messageTick, h]

/-- Witness for C9: seven ticks from a fresh loading state wrap around to
the third message, and a terminal tick stops the message timer. -/
theorem claim_C9_message_cycling_witness :
    pollingState.loading = true
    ∧ (messageTick^[7] (loadingEffect pollingState)).loadingMessage
        = loadingMessages.getD (7 % loadingMessages.length) ""
    ∧ pollingState.pollTimerActive = true
    ∧ TickOutcome.doneEmpty ≠ TickOutcome.stillPending
    ∧ (loadingEffect (pollTick pollingState TickOutcome.doneEmpty)).msgTimerActive = false :=
  ⟨rfl, (claim_C9_message_cycling.1 pollingState rfl 7).1, rfl, by decide,
   claim_C9_message_cycling.2.2.1 pollingState TickOutcome.doneEmpty rfl (by decide)⟩

/-- Claim C10: with an empty prompt and no image the generate handler
issues no submission, surfaces the prompt-or-image message and leaves the
loading flag and the previous result untouched; with a prompt or an image
present a submission request is issued. -/
theorem claim_C10_generate_gate (s : GenState) :
    (s.prompt = "" ∧ s.image = none →
        (handleGenerate s).2 = false
        ∧ (handleGenerate s).1.error = some "Please enter a prompt or upload an image."
        ∧ (handleGenerate s).1.loading = s.loading
        ∧ (handleGenerate s).1.generatedVideo = s.generatedVideo)
    ∧ (¬(s.prompt = "" ∧ s.image = none) → (handleGenerate s).2 = true) := by
  constructor
  · intro h
    simp [handleGenerate, h]
  · intro h
    simp [handleGenerate, h]

/-- Witness for C10 at an empty form and at a form with a prompt. -/
theorem claim_C10_generate_gate_witness :
    ((emptyForm.prompt = "" ∧ emptyForm.image = none)
      ∧ (handleGenerate emptyForm).2 = false
      ∧ (handleGenerate emptyForm).1.error = some "Please enter a prompt or upload an image."
      ∧ (handleGenerate emptyForm).1.loading = emptyForm.loading
      ∧ (handleGenerate emptyForm).1.generatedVideo = emptyForm.generatedVideo)
    ∧ (¬({ emptyForm with prompt := "p" }.prompt = ""
          ∧ { emptyForm with prompt := "p" }.image = none)
      ∧ (handleGenerate { emptyForm with prompt := "p" }).2 = true) := by
  refine ⟨⟨⟨rfl, rfl⟩, (claim_C10_generate_gate emptyForm).1 ⟨rfl, rfl⟩⟩, ⟨?_, ?_⟩⟩
  · decide
  · exact (claim_C10_generate_gate { emptyForm with prompt := "p" }).2 (by decide)

end VideoGen

namespace LiveConvo

/-- The scheduler assigns one start time per chunk. -/
lemma scheduleChunks_length (nst : ℚ) (chunks : List (ℚ × ℚ)) :
    (scheduleChunks nst chunks).1.length = chunks.length := by
  induction chunks generalizing nst with
  | nil => rfl
  | cons c rest ih =>
      obtain ⟨t, d⟩ := c
      simp [scheduleChunks, ih]

/-- The i-th assigned start time is the maximum of the `nextStartTime`
pending after the first i chunks and the i-th chunk's arrival time. -/
lemma scheduleChunks_getD (chunks : List (ℚ × ℚ)) (nst : ℚ) (i : Nat)
    (h : i < chunks.length) :
    ((scheduleChunks nst chunks).1).getD i 0
      = max ((scheduleChunks nst (chunks.take i)).2) ((chunks.getD i (0, 0)).1) := by
  induction chunks generalizing nst i with
  | nil => simp at h
  | cons c rest ih =>
      obtain ⟨t, d⟩ := c
      cases i with
      | zero => simp [scheduleChunks]
      | succ i =>
          have h' : i < rest.length := by simpa using h
          simpa [scheduleChunks] using ih (max nst t + d) i h'

/-- Under back-to-back arrivals the final `nextStartTime` is the initial
one advanced by the total duration, and the starts are exactly the gapless
consecutive schedule. -/
lemma scheduleChunks_btb (chunks : List (ℚ × ℚ)) (nst : ℚ)
    (h : backToBack nst chunks) :
    (scheduleChunks nst chunks).2 = nst + sumDurations chunks
    ∧ (scheduleChunks nst chunks).1 = gaplessStarts nst chunks := by
  induction chunks generalizing nst with
  | nil => simp [scheduleChunks, sumDurations, gaplessStarts]
  | cons c rest ih =>
      obtain ⟨t, d⟩ := c
      obtain ⟨h1, h2⟩ := h
      have hmax : max nst t = nst := max_eq_left h1
      obtain ⟨e1, e2⟩ := ih (max nst t + d) h2
      constructor
      · rw [show (scheduleChunks nst ((t, d) :: rest)).2
              = (scheduleChunks (max nst t + d) rest).2 from rfl, e1, hmax]
        simp [sumDurations]
        ring
      · rw [show (scheduleChunks nst ((t, d) :: rest)).1
              = max nst t :: (scheduleChunks (max nst t + d) rest).1 from rfl, e2, hmax]
        simp [gaplessStarts]

/-- The audio branch of `onmessage` schedules the chunk at the maximum of
the pending `nextStartTime` and the current clock time, then advances
`nextStartTime` by exactly the chunk's duration and tracks the source. -/
lemma onmessage_schedule (s : ConvoState) (m : ServerMessage) (d : ℚ)
    (h1 : m.audioData = some d) (h2 : s.outputAudioContext.isSome = true) :
    (onmessage s m).nextStartTime = max s.nextStartTime m.arrival + d
    ∧ (onmessage s m).audioSources
        = s.audioSources ++ [max s.nextStartTime m.arrival] := by
  cases ho : m.outputTranscription <;> cases hi : m.inputTranscription <;>
    cases ht : m.turnComplete <;>
      simp [onmessage, h1, h2, ho, hi, ht]

/-- Claim C1: each decoded chunk's effective playback start is the maximum
of the pending `nextStartTime` and the clock time at its arrival (both for
the `onmessage` audio branch itself and positionally along any chunk
sequence), `nextStartTime` advances by exactly each chunk's duration, and
under back-to-back arrivals the final `nextStartTime` equals the first
chunk's start plus the total duration while the starts form the gapless
consecutive schedule (no gap, no overlap). -/
theorem claim_C1_gapless_schedule :
    (∀ s m d, m.audioData = some d → s.outputAudioContext.isSome = true →
        (onmessage s m).nextStartTime = max s.nextStartTime m.arrival + d
        ∧ (onmessage s m).audioSources
            = s.audioSources ++ [max s.nextStartTime m.arrival])
    ∧ (∀ chunks nst0 i, i < List.length chunks →
        ((scheduleChunks nst0 chunks).1).getD i 0
          = max ((scheduleChunks nst0 (chunks.take i)).2) ((chunks.getD i (0, 0)).1))
    ∧ (∀ nst0 t1 d1 rest, backToBack (max nst0 t1 + d1) rest →
        (scheduleChunks nst0 ((t1, d1) :: rest)).2
          = max nst0 t1 + sumDurations ((t1, d1) :: rest)
        ∧ (scheduleChunks nst0 ((t1, d1) :: rest)).1
          = max nst0 t1 :: gaplessStarts (max nst0 t1 + d1) rest) := by
  refine ⟨onmessage_schedule, scheduleChunks_getD, ?_⟩
  intro nst0 t1 d1 rest h
  obtain ⟨e1, e2⟩ := scheduleChunks_btb rest (max nst0 t1 + d1) h
  constructor
  · rw [show (scheduleChunks nst0 ((t1, d1) :: rest)).2
          = (scheduleChunks (max nst0 t1 + d1) rest).2 from rfl, e1]
    simp [sumDurations]
    ring
  · rw [show (scheduleChunks nst0 ((t1, d1) :: rest)).1
          = max nst0 t1 :: (scheduleChunks (max nst0 t1 + d1) rest).1 from rfl, e2]

/-- Witness for C1 on a concrete two-chunk back-to-back sequence and one
concrete audio message. -/
theorem claim_C1_gapless_schedule_witness :
    msgAudioOnly.audioData = some 1
    ∧ fullState.outputAudioContext.isSome = true
    ∧ (onmessage fullState msgAudioOnly).nextStartTime
        = max fullState.nextStartTime msgAudioOnly.arrival + 1
    ∧ (1 : Nat) < List.length [((0 : ℚ), (1 : ℚ)), (1, 2)]
    ∧ ((scheduleChunks 0 [((0 : ℚ), (1 : ℚ)), (1, 2)]).1).getD 1 0
        = max ((scheduleChunks 0 ([((0 : ℚ), (1 : ℚ)), (1, 2)].take 1)).2)
              (([((0 : ℚ), (1 : ℚ)), (1, 2)].getD 1 (0, 0)).1)
    ∧ backToBack (max 0 0 + 1) [((1 : ℚ), (2 : ℚ))]
    ∧ (scheduleChunks 0 [((0 : ℚ), (1 : ℚ)), (1, 2)]).2
        = max 0 0 + sumDurations [((0 : ℚ), (1 : ℚ)), (1, 2)] := by
  have hb : backToBack ((max 0 0 : ℚ) + 1) [((1 : ℚ), (2 : ℚ))] := by
    constructor
    · norm_num
    · exact trivial
  refine ⟨rfl, rfl, (claim_C1_gapless_schedule.1 fullState msgAudioOnly 1 rfl rfl).1,
          by norm_num, claim_C1_gapless_schedule.2.1 [((0 : ℚ), (1 : ℚ)), (1, 2)] 0 1 (by norm_num),
          hb, (claim_C1_gapless_schedule.2.2 0 0 1 [((1 : ℚ), (2 : ℚ))] hb).1⟩

/-- On a message that does not complete a turn, the output accumulator
gains exactly the message's output fragment, and the input accumulator
gains the input fragment only when the message carries no output fragment
(the else-if drops it otherwise). -/
lemma onmessage_transcripts (s : ConvoState) (m : ServerMessage)
    (h : m.turnComplete = false) :
    (onmessage s m).currentOutputTranscription
      = s.currentOutputTranscription ++ m.outputTranscription.getD ""
    ∧ (onmessage s m).currentInputTranscription
      = s.currentInputTranscription ++
          (match m.outputTranscription with
           | some _ => ""
           | none => m.inputTranscription.getD "") := by
  cases ho : m.outputTranscription <;> cases hi : m.inputTranscription <;>
    cases ha : m.audioData <;> cases hoc : s.outputAudioContext <;>
      simp [onmessage, h, ho, hi, ha, hoc]

/-- Claim C5 counterexample: a single message carrying both fragments.
The handler appends only the output fragment; the input fragment "a" is
dropped, so the input accumulator is empty rather than the concatenation
of the input fragments received. -/
theorem claim_C5_counterexample :
    msgBoth.inputTranscription = some "a"
    ∧ (onmessage initConvoState msgBoth).currentInputTranscription = ""
    ∧ (onmessage initConvoState msgBoth).currentInputTranscription ≠ "a"
    ∧ (onmessage initConvoState msgBoth).currentOutputTranscription = "b" := by
  refine ⟨rfl, rfl, by decide, rfl⟩

/-- Claim C5 as amended: across any sequence of messages since the last
turn-complete, the output accumulator is the concatenation, in arrival
order, of all output fragments, and the input accumulator is the
concatenation of the input fragments of those messages that carry no
output fragment (a message carrying both contributes only its output
fragment). -/
theorem claim_C5_transcript_concat (s : ConvoState) (ms : List ServerMessage)
    (h : ∀ m ∈ ms, m.turnComplete = false) :
    (List.foldl onmessage s ms).currentOutputTranscription
      = s.currentOutputTranscription ++ outputFragments ms
    ∧ (List.foldl onmessage s ms).currentInputTranscription
      = s.currentInputTranscription ++ inputFragments ms := by
  induction ms generalizing s with
  | nil => simp [outputFragments, inputFragments]
  | cons m rest ih =>
      have hm : m.turnComplete = false := h m (List.mem_cons_self m rest)
      obtain ⟨ho, hi⟩ := onmessage_transcripts s m hm
      obtain ⟨e1, e2⟩ :=
        ih (onmessage s m) (fun x hx => h x (List.mem_cons_of_mem m hx))
      constructor
      · rw [List.foldl_cons, e1, ho, outputFragments, String.append_assoc]
      · rw [List.foldl_cons, e2, hi, inputFragments, String.append_assoc]

/-- Witness for the amended C5 on a concrete two-message sequence: the
first message carries both fragments, the second only an input fragment. -/
theorem claim_C5_transcript_concat_witness :
    (∀ m ∈ [msgBoth, msgInputOnly], m.turnComplete = false)
    ∧ (List.foldl onmessage initConvoState [msgBoth, msgInputOnly]).currentOutputTranscription
        = initConvoState.currentOutputTranscription ++ outputFragments [msgBoth, msgInputOnly]
    ∧ (List.foldl onmessage initConvoState [msgBoth, msgInputOnly]).currentInputTranscription
        = initConvoState.currentInputTranscription ++ inputFragments [msgBoth, msgInputOnly] := by
  have h : ∀ m ∈ [msgBoth, msgInputOnly], m.turnComplete = false := by
    intro m hm
    rcases List.mem_pair.mp hm with hm | hm <;> subst hm <;> rfl
  have hc := claim_C5_transcript_concat initConvoState [msgBoth, msgInputOnly] h
  exact ⟨h, hc.1, hc.2⟩

/-- Claim C6: a turn-complete message appends exactly one conversation
turn, holding precisely the accumulated pair as updated by the same
message's fragment branch, and clears both accumulators and both live
transcript values; the history grows by exactly one entry. -/
theorem claim_C6_turn_complete (s : ConvoState) (m : ServerMessage)
    (h : m.turnComplete = true) :
    (onmessage s m).conversationHistory
      = s.conversationHistory ++
          [(s.currentInputTranscription ++
              (match m.outputTranscription with
               | some _ => ""
               | none => m.inputTranscription.getD ""),
            s.currentOutputTranscription ++ m.outputTranscription.getD "")]
    ∧ (onmessage s m).conversationHistory.length
        = s.conversationHistory.length + 1
    ∧ (onmessage s m).currentInputTranscription = ""
    ∧ (onmessage s m).currentOutputTranscription = ""
    ∧ (onmessage s m).userTranscript = ""
    ∧ (onmessage s m).modelTranscript = "" := by
  cases ho : m.outputTranscription <;> cases hi : m.inputTranscription <;>
    cases ha : m.audioData <;> cases hoc : s.outputAudioContext <;>
      simp [onmessage, h, ho, hi, ha, hoc]

/-- Witness for C6: completing a turn from a state holding accumulated
transcripts "u" and "m" appends exactly that pair and clears the buffers. -/
theorem claim_C6_turn_complete_witness :
    msgTurnOnly.turnComplete = true
    ∧ (onmessage fullState msgTurnOnly).conversationHistory = [("u", "m")]
    ∧ (onmessage fullState msgTurnOnly).currentInputTranscription = ""
    ∧ (onmessage fullState msgTurnOnly).currentOutputTranscription = "" := by
  have h := claim_C6_turn_complete fullState msgTurnOnly rfl
  refine ⟨rfl, ?_, h.2.2.1, h.2.2.2.1⟩
  have h1 := h.1
  simpa [fullState, msgTurnOnly] using h1

/-- Closed form of `cleanup` when no effect call throws: every managed ref
is nulled (the input context only when it was not already closed), the
session is deactivated, the schedule is reset, the source set is cleared,
the effect calls are exactly `benignLog`, and no exception escapes. -/
lemma cleanup_benign_eq (s : ConvoState) :
    cleanup benign s
      = ({ s with sessionPromise := none, mediaStream := none,
                  scriptProcessor := none, sourceNode := none,
                  inputAudioContext :=
                    if s.inputAudioContext = some true then some true else none,
                  isSessionActive := false, nextStartTime := 0,
                  audioSources := [] },
         benignLog s, false) := by
  cases h1 : s.sessionPromise <;> cases h2 : s.mediaStream <;>
    cases h3 : s.scriptProcessor <;> cases h4 : s.sourceNode <;>
      rcases h5 : s.inputAudioContext with _ | b
  all_goals try cases b
  all_goals simp [cleanup, andThen, benign, benignLog, h1, h2, h3, h4, h5]

/-- Claim C3 counterexample: with every resource live, if stopping the
capture tracks throws, the exception escapes `cleanup` and none of the
later steps run — the script processor stays connected (ref still set),
`nextStartTime` keeps its old value and the scheduled source is neither
stopped nor cleared. -/
theorem claim_C3_counterexample :
    (cleanup throwingEnv fullState).1.scriptProcessor = some ()
    ∧ (cleanup throwingEnv fullState).1.sourceNode = some ()
    ∧ (cleanup throwingEnv fullState).1.mediaStream = some ()
    ∧ (cleanup throwingEnv fullState).1.nextStartTime = 5
    ∧ (cleanup throwingEnv fullState).1.audioSources = [3]
    ∧ (cleanup throwingEnv fullState).1.isSessionActive = true
    ∧ (cleanup throwingEnv fullState).2.2 = true :=
  ⟨rfl, rfl, rfl, rfl, rfl, rfl, rfl⟩

/-- Claim C3 as amended: when no teardown step throws, `cleanup` performs
every step — it closes the session, stops the tracks, disconnects both
nodes, closes the open input context, stops every scheduled source, nulls
the managed refs, deactivates the session, resets the schedule and clears
the source set, with no exception.  The steps are not individually
guarded, so (per the counterexample) a throwing step aborts the rest. -/
theorem claim_C3_teardown_total (s : ConvoState) :
    ((cleanup benign s).1.sessionPromise = none
      ∧ (cleanup benign s).1.mediaStream = none
      ∧ (cleanup benign s).1.scriptProcessor = none
      ∧ (cleanup benign s).1.sourceNode = none
      ∧ (cleanup benign s).1.isSessionActive = false
      ∧ (cleanup benign s).1.nextStartTime = 0
      ∧ (cleanup benign s).1.audioSources = []
      ∧ (cleanup benign s).2.2 = false)
    ∧ (s.inputAudioContext = some false →
        (cleanup benign s).1.inputAudioContext = none)
    ∧ (∀ a ∈ s.audioSources, TeardownStep.stopSource a ∈ (cleanup benign s).2.1)
    ∧ (s.sessionPromise.isSome = true →
        TeardownStep.closeSession ∈ (cleanup benign s).2.1)
    ∧ (s.mediaStream.isSome = true →
        TeardownStep.stopTracks ∈ (cleanup benign s).2.1)
    ∧ (s.scriptProcessor.isSome = true →
        TeardownStep.disconnectProcessor ∈ (cleanup benign s).2.1)
    ∧ (s.sourceNode.isSome = true →
        TeardownStep.disconnectSource ∈ (cleanup benign s).2.1)
    ∧ (s.inputAudioContext = some false →
        TeardownStep.closeInputContext ∈ (cleanup benign s).2.1) := by
  rw [cleanup_benign_eq]
  refine ⟨⟨rfl, rfl, rfl, rfl, rfl, rfl, rfl, rfl⟩, ?_, ?_, ?_, ?_, ?_, ?_, ?_⟩
  · intro h
    simp [h]
  · intro a ha
    simp [benignLog, List.mem_append, ha]
  · intro h
    rcases Option.isSome_iff_exists.mp h with ⟨u, hu⟩
    simp [benignLog, hu, List.mem_append]
  · intro h
    rcases Option.isSome_iff_exists.mp h with ⟨u, hu⟩
    simp [benignLog, hu, List.mem_append]
  · intro h
    rcases Option.isSome_iff_exists.mp h with ⟨u, hu⟩
    simp [benignLog, hu, List.mem_append]
  · intro h
    rcases Option.isSome_iff_exists.mp h with ⟨u, hu⟩
    simp [benignLog, hu, List.mem_append]
  · intro h
    simp [benignLog, h, List.mem_append]

/-- Witness for the amended C3 at the fully live state. -/
theorem claim_C3_teardown_total_witness :
    fullState.inputAudioContext = some false
    ∧ (cleanup benign fullState).1.inputAudioContext = none
    ∧ (3 : ℚ) ∈ fullState.audioSources
    ∧ TeardownStep.stopSource 3 ∈ (cleanup benign fullState).2.1
    ∧ fullState.mediaStream.isSome = true
    ∧ TeardownStep.stopTracks ∈ (cleanup benign fullState).2.1 := by
  have h := claim_C3_teardown_total fullState
  have hmem : (3 : ℚ) ∈ fullState.audioSources := List.mem_singleton.mpr rfl
  exact ⟨rfl, h.2.1 rfl, hmem, h.2.2.1 3 hmem, rfl, h.2.2.2.2.1 rfl⟩

/-- Claim C7 counterexample: stopping a freshly started session leaves the
output audio context handle set — `cleanup` never clears (or closes) it,
so not all of the session's resource handles end up null. -/
theorem claim_C7_counterexample :
    (stopConversation benign
        (startConversation (StartEnv.mk true MicOutcome.granted) initConvoState)).1.outputAudioContext
      = some ()
    ∧ some () ≠ (none : Option Unit) :=
  ⟨rfl, by decide⟩

/-- Claim C7 as amended: stopping twice in a row (or after a natural
close, which runs the same `cleanup`) produces no error and performs no
second effect call — every resource handle that `cleanup` manages is
already null, so nothing is double-released and the second stop leaves the
state unchanged.  The output audio context handle, however, is never
cleared by `cleanup` and survives with its prior value. -/
theorem claim_C7_stop_idempotent (s : ConvoState) :
    stopConversation benign (stopConversation benign s).1
      = ((stopConversation benign s).1, [], false)
    ∧ (stopConversation benign s).1.sessionPromise = none
    ∧ (stopConversation benign s).1.mediaStream = none
    ∧ (stopConversation benign s).1.scriptProcessor = none
    ∧ (stopConversation benign s).1.sourceNode = none
    ∧ (stopConversation benign s).1.outputAudioContext = s.outputAudioContext
    ∧ (s.inputAudioContext = some true
        ∨ (stopConversation benign s).1.inputAudioContext = none) := by
  rcases hic : s.inputAudioContext with _ | b
  · simp [stopConversation, cleanup_benign_eq, benignLog, hic]
  · cases b
    · simp [stopConversation, cleanup_benign_eq, benignLog, hic]
    · simp [stopConversation, cleanup_benign_eq, benignLog, hic]

/-- Claim C4 counterexample: starting with a granted microphone marks the
session active immediately, while the live channel's `onopen` has not
fired — the session is active with the channel still unestablished. -/
theorem claim_C4_counterexample :
    (startConversation (StartEnv.mk true MicOutcome.granted) initConvoState).isSessionActive = true
    ∧ (startConversation (StartEnv.mk true MicOutcome.granted) initConvoState).channelOpen = false :=
  ⟨rfl, rfl⟩

/-- Claim C4 as amended: the session is marked active exactly when the
capture API exists and microphone access is granted; activation happens as
soon as the connection is initiated (promise stored) and does not wait for
the channel to be established — `startConversation` never changes the
channel-open flag. -/
theorem claim_C4_active_after_initiation (env : StartEnv) (s : ConvoState) :
    ((startConversation env s).isSessionActive = true
        ↔ env.hasGetUserMedia = true ∧ env.mic = MicOutcome.granted)
    ∧ (startConversation env s).channelOpen = s.channelOpen
    ∧ (env.hasGetUserMedia = true → env.mic = MicOutcome.granted →
        (startConversation env s).sessionPromise = some ()) := by
  obtain ⟨g, mic⟩ := env
  cases g <;> cases mic <;>
    simp [startConversation, cleanup_benign_eq]

/-- Witness for the amended C4 at a granted start from the initial state. -/
theorem claim_C4_active_after_initiation_witness :
    (StartEnv.mk true MicOutcome.granted).hasGetUserMedia = true
    ∧ (StartEnv.mk true MicOutcome.granted).mic = MicOutcome.granted
    ∧ (startConversation (StartEnv.mk true MicOutcome.granted) initConvoState).sessionPromise
        = some () :=
  ⟨rfl, rfl,
   (claim_C4_active_after_initiation (StartEnv.mk true MicOutcome.granted) initConvoState).2.2
     rfl rfl⟩

/-- Claim C8: a denied microphone permission leaves the session idle with
the permission-denied message (distinct from the no-device message), opens
no channel and acquires no capture resource — every handle stays null. -/
theorem claim_C8_permission_denied :
    (startConversation (StartEnv.mk true MicOutcome.notAllowed) initConvoState).isSessionActive = false
    ∧ (startConversation (StartEnv.mk true MicOutcome.notAllowed) initConvoState).error
        = some permissionDeniedMessage
    ∧ (startConversation (StartEnv.mk true MicOutcome.notAllowed) initConvoState).sessionPromise = none
    ∧ (startConversation (StartEnv.mk true MicOutcome.notAllowed) initConvoState).channelOpen = false
    ∧ (startConversation (StartEnv.mk true MicOutcome.notAllowed) initConvoState).mediaStream = none
    ∧ (startConversation (StartEnv.mk true MicOutcome.notAllowed) initConvoState).inputAudioContext = none
    ∧ (startConversation (StartEnv.mk true MicOutcome.notAllowed) initConvoState).outputAudioContext = none
    ∧ (startConversation (StartEnv.mk true MicOutcome.notAllowed) initConvoState).scriptProcessor = none
    ∧ (startConversation (StartEnv.mk true MicOutcome.notAllowed) initConvoState).sourceNode = none
    ∧ permissionDeniedMessage ≠ noMicrophoneMessage :=
  ⟨rfl, rfl, rfl, rfl, rfl, rfl, rfl, rfl, rfl, by decide⟩

end LiveConvo
